import Mathlib

set_option linter.unusedVariables false

/-!
Shallow embedding of the Go package `actionsdk` (file actionsdk.go) of the
inngestgo repository.  The package parses a JSON payload handed to the process
as its first positional argument, caches the parsed record in a package-level
variable, exposes metadata and secrets, and writes results or errors to the
standard output stream.  Machine integers are modelled as Int, JSON text as
Lean strings, the argument vector, environment and stdout as explicit state.
-/

/-- JSON values as exchanged by the Go encoding/json package.  Objects are kept
as ordered association lists, preserving wire order and duplicate keys exactly
as they occur in the payload text; numbers are restricted to integers, the only
numeric literals this SDK exchanges. -/
inductive Json where
  | null : Json
  | bool : Bool → Json
  | num : Int → Json
  | str : String → Json
  | arr : List Json → Json
  | obj : List (String × Json) → Json

/-- Whitespace skipping of the JSON scanner (space, tab, newline, carriage
return), as in the Go scanner. -/
def skipWs : List Char → List Char
  | [] => []
  | c :: cs => if c = ' ' ∨ c = '\t' ∨ c = '\n' ∨ c = '\r' then skipWs cs else c :: cs

/-- Value of one hexadecimal digit, used for \u escapes. -/
def hexVal (c : Char) : Option Nat :=
  if '0' ≤ c ∧ c ≤ '9' then some (c.toNat - '0'.toNat)
  else if 'a' ≤ c ∧ c ≤ 'f' then some (c.toNat - 'a'.toNat + 10)
  else if 'A' ≤ c ∧ c ≤ 'F' then some (c.toNat - 'A'.toNat + 10)
  else none

/-- Parses the body of a JSON string after the opening quote, returning the
decoded characters and the input after the closing quote. -/
def parseStrBody : List Char → Except String (List Char × List Char)
  | [] => .error "unexpected end of JSON input"
  | '"' :: rest => .ok ([], rest)
  | '\\' :: [] => .error "unexpected end of JSON input"
  | '\\' :: e :: rest2 =>
    if e = '"' ∨ e = '\\' ∨ e = '/' then
      match parseStrBody rest2 with
      | .ok (cs, r) => .ok (e :: cs, r)
      | .error m => .error m
    else if e = 'n' ∨ e = 'r' ∨ e = 't' ∨ e = 'b' ∨ e = 'f' then
      let d : Char :=
        if e = 'n' then '\n' else if e = 'r' then '\r' else if e = 't' then '\t'
        else if e = 'b' then '\x08' else '\x0c'
      match parseStrBody rest2 with
      | .ok (cs, r) => .ok (d :: cs, r)
      | .error m => .error m
    else if e = 'u' then
      match rest2 with
      | a :: b :: c :: d :: rest3 =>
        match hexVal a, hexVal b, hexVal c, hexVal d with
        | some ha, some hb, some hc, some hd =>
          match parseStrBody rest3 with
          | .ok (cs, r) => .ok (Char.ofNat (((ha * 16 + hb) * 16 + hc) * 16 + hd) :: cs, r)
          | .error m => .error m
        | _, _, _, _ => .error "invalid character in hexadecimal escape"
      | _ => .error "unexpected end of JSON input"
    else .error "invalid character in string escape code"
  | c :: rest =>
    match parseStrBody rest with
    | .ok (cs, r) => .ok (c :: cs, r)
    | .error m => .error m

/-- Takes the leading run of decimal digits. -/
def takeDigits : List Char → (List Char × List Char)
  | [] => ([], [])
  | c :: cs =>
    if c.isDigit then
      let (ds, r) := takeDigits cs
      (c :: ds, r)
    else ([], c :: cs)

/-- Decimal digits to a natural number. -/
def digitsToNat (acc : Nat) : List Char → Nat
  | [] => acc
  | c :: cs => digitsToNat (acc * 10 + (c.toNat - '0'.toNat)) cs

/-- Expects the given literal characters at the head of the input. -/
def expectLit : List Char → List Char → Except String (List Char)
  | [], rest => .ok rest
  | _ :: _, [] => .error "unexpected end of JSON input"
  | l :: ls, c :: rest =>
    if c = l then expectLit ls rest else .error "invalid character in literal"

/-- Builds an integer JSON number from sign and digits. -/
def mkNum (neg : Bool) (ds : List Char) : Json :=
  let n : Nat := digitsToNat 0 ds
  Json.num (if neg then -(n : Int) else (n : Int))

mutual

/-- Parses one JSON value.  The fuel argument bounds recursion; callers supply
more fuel than characters so the bound is never the reason a parse fails. -/
def parseVal : Nat → List Char → Except String (Json × List Char)
  | 0, _ => .error "value nesting too deep"
  | Nat.succ fuel, cs =>
    match skipWs cs with
    | [] => .error "unexpected end of JSON input"
    | c :: rest =>
      if c = 'n' then (expectLit ['u', 'l', 'l'] rest).map (fun r => (Json.null, r))
      else if c = 't' then (expectLit ['r', 'u', 'e'] rest).map (fun r => (Json.bool true, r))
      else if c = 'f' then (expectLit ['a', 'l', 's', 'e'] rest).map (fun r => (Json.bool false, r))
      else if c = '"' then
        match parseStrBody rest with
        | .ok (content, r) => .ok (Json.str (String.mk content), r)
        | .error m => .error m
      else if c = '-' ∨ c.isDigit then
        let neg := c = '-'
        let ds0 := if c = '-' then rest else c :: rest
        match ds0 with
        | [] => .error "unexpected end of JSON input"
        | d :: _ =>
          if d.isDigit then
            let (ds, r) := takeDigits ds0
            match r with
            | [] => .ok (mkNum neg ds, [])
            | p :: _ =>
              if p = '.' ∨ p = 'e' ∨ p = 'E' then .error "unsupported number form"
              else .ok (mkNum neg ds, r)
          else .error "invalid character in numeric literal"
      else if c = '\x7b' then parseObjRest fuel rest []
      else if c = '[' then parseArrRest fuel rest []
      else .error "invalid character looking for beginning of value"

/-- Parses object members after the opening brace (or after a comma), with the
members read so far accumulated in order. -/
def parseObjRest : Nat → List Char → List (String × Json) → Except String (Json × List Char)
  | 0, _, _ => .error "value nesting too deep"
  | Nat.succ fuel, cs, acc =>
    match skipWs cs with
    | [] => .error "unexpected end of JSON input"
    | c :: rest =>
      if c = '\x7d' then
        if acc.isEmpty then .ok (Json.obj [], rest)
        else .error "invalid character after object member"
      else if c = '"' then
        match parseStrBody rest with
        | .error m => .error m
        | .ok (kcs, r1) =>
          match skipWs r1 with
          | ':' :: r2 =>
            match parseVal fuel r2 with
            | .error m => .error m
            | .ok (v, r3) =>
              match skipWs r3 with
              | ',' :: r4 => parseObjRest fuel r4 (acc ++ [(String.mk kcs, v)])
              | '\x7d' :: r4 => .ok (Json.obj (acc ++ [(String.mk kcs, v)]), r4)
              | _ => .error "invalid character after object member"
          | _ => .error "invalid character after object key"
      else .error "invalid character looking for object key"

/-- Parses array items after the opening bracket (or after a comma), with the
items read so far accumulated in order. -/
def parseArrRest : Nat → List Char → List Json → Except String (Json × List Char)
  | 0, _, _ => .error "value nesting too deep"
  | Nat.succ fuel, cs, acc =>
    match skipWs cs with
    | [] => .error "unexpected end of JSON input"
    | c :: rest =>
      if c = ']' then
        if acc.isEmpty then .ok (Json.arr [], rest)
        else .error "invalid character after array item"
      else
        match parseVal fuel (c :: rest) with
        | .error m => .error m
        | .ok (v, r1) =>
          match skipWs r1 with
          | ',' :: r2 => parseArrRest fuel r2 (acc ++ [v])
          | ']' :: r2 => .ok (Json.arr (acc ++ [v]), r2)
          | _ => .error "invalid character after array item"

end

/-- Parses a complete JSON text, requiring only whitespace after the top-level
value, as json.Unmarshal does via its validity scan. -/
def Json.parse (s : String) : Except String Json :=
  match parseVal (s.length + 2) s.data with
  | .error m => .error m
  | .ok (j, rest) =>
    match skipWs rest with
    | [] => .ok j
    | _ :: _ => .error "invalid character after top-level value"

/-- Lowercase hexadecimal digit. -/
def hexDigitChar (n : Nat) : Char :=
  if n < 10 then Char.ofNat ('0'.toNat + n) else Char.ofNat ('a'.toNat + n - 10)

/-- Escaping of one character in a JSON string, as json.Marshal writes it with
its default HTML escaping (quote, backslash, control characters, and the three
HTML-significant characters). -/
def escapeChar (c : Char) : String :=
  if c = '"' then "\\\""
  else if c = '\\' then "\\\\"
  else if c = '\n' then "\\n"
  else if c = '\r' then "\\r"
  else if c = '\t' then "\\t"
  else if c = '<' then "\\u003c"
  else if c = '>' then "\\u003e"
  else if c = '&' then "\\u0026"
  else if c.toNat < 32 then
    String.mk ['\\', 'u', '0', '0', hexDigitChar (c.toNat / 16), hexDigitChar (c.toNat % 16)]
  else if c.toNat = 8232 then "\\u2028"
  else if c.toNat = 8233 then "\\u2029"
  else String.singleton c

/-- JSON string literal encoding, quotes included. -/
def encodeString (s : String) : String :=
  "\"" ++ String.join (s.data.map escapeChar) ++ "\""

mutual

/-- Compact JSON encoding of a value, as json.Marshal produces it: no added
whitespace, members in the order stored. -/
def Json.encode : Json → String
  | Json.null => "null"
  | Json.bool true => "true"
  | Json.bool false => "false"
  | Json.num n => toString n
  | Json.str s => encodeString s
  | Json.arr xs => "[" ++ encodeItems xs ++ "]"
  | Json.obj kvs => "\x7b" ++ encodeMembers kvs ++ "\x7d"

/-- Comma-separated encoding of array items. -/
def encodeItems : List Json → String
  | [] => ""
  | [x] => Json.encode x
  | x :: y :: rest => Json.encode x ++ "," ++ encodeItems (y :: rest)

/-- Comma-separated encoding of object members. -/
def encodeMembers : List (String × Json) → String
  | [] => ""
  | [(k, v)] => encodeString k ++ ":" ++ Json.encode v
  | (k, v) :: m :: rest => encodeString k ++ ":" ++ Json.encode v ++ "," ++ encodeMembers (m :: rest)

end

/-- Event from actionsdk.go, with its json tags name, data, user, id, ts, v.
Go maps from string to interface values are modelled as ordered association
lists of JSON values. -/
structure Event where
  Name : String
  Data : List (String × Json)
  User : List (String × Json)
  ID : String
  Timestamp : Int
  Version : String

/-- Zero value of Event, as Go initializes it. -/
def zeroEvent : Event := ⟨"", [], [], "", 0, ""⟩

/-- EventWrapper from actionsdk.go. -/
structure EventWrapper where
  Event : Event

/-- Zero value of EventWrapper. -/
def zeroEventWrapper : EventWrapper := ⟨zeroEvent⟩

/-- Baggage from actionsdk.go: the EventWrapper field carries the json tag
WorkspaceEvent; Actions maps a numeric step identifier to an object of prior
outputs. -/
structure Baggage where
  EventWrapper : EventWrapper
  Actions : List (Nat × List (String × Json))

/-- Zero value of Baggage. -/
def zeroBaggage : Baggage := ⟨zeroEventWrapper, []⟩

/-- Args from actionsdk.go.  Metadata is a json.RawMessage: the raw JSON of
that member, kept undecoded; none models the nil zero value of the slice. -/
structure Args where
  ArgsVersion : Int
  Metadata : Option Json
  Baggage : Baggage

/-- Zero value of Args, the record the source allocates with new(Args). -/
def zeroArgs : Args := ⟨0, none, zeroBaggage⟩

/-- Keeps the first error, as the Go decoder does with saveError while it keeps
decoding the remaining members. -/
def firstErr : Option String → Option String → Option String
  | some e, _ => some e
  | none, e => e

/-- ASCII lower-casing of one character, for case-insensitive key matching. -/
def lowerChar (c : Char) : Char :=
  if 'A' ≤ c ∧ c ≤ 'Z' then Char.ofNat (c.toNat + 32) else c

/-- Go field-name matching for json.Unmarshal: the member key is matched
against the field name (or its tag) case-insensitively. -/
def keyMatches (fname k : String) : Bool :=
  fname.data.map lowerChar == k.data.map lowerChar

/-- Folds a struct field step over the members of a JSON object in order;
later members overwrite earlier ones, the first error is kept and decoding
continues, as in the Go decoder. -/
def decodeFields (step : α → String → Json → α × Option String) :
    α → List (String × Json) → α × Option String
  | a, [] => (a, none)
  | a, (k, v) :: rest =>
    let p1 := step a k v
    let p2 := decodeFields step p1.1 rest
    (p2.1, firstErr p1.2 p2.2)

/-- Decodes a JSON value into a Go struct: an object is folded member by
member, the literal null is a no-op, and any other value is a type error that
leaves the struct unchanged. -/
def decodeStructVal (step : α → String → Json → α × Option String) (a : α) :
    Json → α × Option String
  | Json.obj kvs => decodeFields step a kvs
  | Json.null => (a, none)
  | _ => (a, some "cannot unmarshal value into Go struct")

/-- Decoding of a JSON value into an int field: a number outside the 64-bit
range of the Go int type is a range error from strconv.ParseInt; a type or
range error leaves the field unchanged, null is a no-op. -/
def decIntField (cur : Int) : Json → Int × Option String
  | Json.num n =>
    if -(2 ^ 63) ≤ n ∧ n < 2 ^ 63 then (n, none)
    else (cur, some "cannot unmarshal number out of range into Go value of type int")
  | Json.null => (cur, none)
  | _ => (cur, some "cannot unmarshal value into Go value of type int")

/-- Decoding of a JSON value into a string field. -/
def decStringField (cur : String) : Json → String × Option String
  | Json.str s => (s, none)
  | Json.null => (cur, none)
  | _ => (cur, some "cannot unmarshal value into Go value of type string")

/-- Decoding of a JSON value into a map from string to interface values. -/
def decMapField (cur : List (String × Json)) : Json → List (String × Json) × Option String
  | Json.obj kvs => (kvs, none)
  | Json.null => (cur, none)
  | _ => (cur, some "cannot unmarshal value into Go value of type map")

/-- Decoding into a json.RawMessage field: the raw member is stored as is;
RawMessage also receives and stores the literal null. -/
def decRawField (cur : Option Json) (v : Json) : Option Json × Option String :=
  (some v, none)

/-- Parses a JSON object key as a Go uint map key; strconv.ParseUint rejects a
value at or above 2 to the 64th as out of range. -/
def parseUintKey (s : String) : Option Nat :=
  if s.length ≠ 0 ∧ s.data.all Char.isDigit ∧ digitsToNat 0 s.data < 2 ^ 64 then
    some (digitsToNat 0 s.data)
  else none

/-- Decodes the members of the Actions object: keys must parse as uint, each
value must be an object (or null, giving a nil inner map); a failing entry is
recorded as the first error and skipped. -/
def decActionEntries (cur : List (Nat × List (String × Json))) :
    List (String × Json) → List (Nat × List (String × Json)) × Option String
  | [] => (cur, none)
  | (k, v) :: rest =>
    match parseUintKey k with
    | none =>
      let p := decActionEntries cur rest
      (p.1, firstErr (some "cannot unmarshal object key into Go value of type uint") p.2)
    | some n =>
      match v with
      | Json.obj kvs2 =>
        decActionEntries (cur ++ [(n, kvs2)]) rest
      | Json.null =>
        decActionEntries (cur ++ [(n, [])]) rest
      | _ =>
        let p := decActionEntries cur rest
        (p.1, firstErr (some "cannot unmarshal value into Go value of type map") p.2)

/-- Decoding of a JSON value into the Actions map. -/
def decActionsField (cur : List (Nat × List (String × Json))) :
    Json → List (Nat × List (String × Json)) × Option String
  | Json.obj kvs => decActionEntries cur kvs
  | Json.null => (cur, none)
  | _ => (cur, some "cannot unmarshal value into Go value of type map")

/-- Field step for Event (tags name, data, user, id, ts, v). -/
def eventStep (e : Event) (k : String) (v : Json) : Event × Option String :=
  if keyMatches "name" k then
    let p := decStringField e.Name v
    ({ e with Name := p.1 }, p.2)
  else if keyMatches "data" k then
    let p := decMapField e.Data v
    ({ e with Data := p.1 }, p.2)
  else if keyMatches "user" k then
    let p := decMapField e.User v
    ({ e with User := p.1 }, p.2)
  else if keyMatches "id" k then
    let p := decStringField e.ID v
    ({ e with ID := p.1 }, p.2)
  else if keyMatches "ts" k then
    let p := decIntField e.Timestamp v
    ({ e with Timestamp := p.1 }, p.2)
  else if keyMatches "v" k then
    let p := decStringField e.Version v
    ({ e with Version := p.1 }, p.2)
  else (e, none)

/-- Field step for EventWrapper (field Event). -/
def eventWrapperStep (w : EventWrapper) (k : String) (v : Json) :
    EventWrapper × Option String :=
  if keyMatches "Event" k then
    let p := decodeStructVal eventStep w.Event v
    ({ Event := p.1 }, p.2)
  else (w, none)

/-- Field step for Baggage (tag WorkspaceEvent on the EventWrapper field, field
Actions). -/
def baggageStep (b : Baggage) (k : String) (v : Json) : Baggage × Option String :=
  if keyMatches "WorkspaceEvent" k then
    let p := decodeStructVal eventWrapperStep b.EventWrapper v
    ({ b with EventWrapper := p.1 }, p.2)
  else if keyMatches "Actions" k then
    let p := decActionsField b.Actions v
    ({ b with Actions := p.1 }, p.2)
  else (b, none)

/-- Field step for Args (fields ArgsVersion, Metadata, Baggage). -/
def argsStep (a : Args) (k : String) (v : Json) : Args × Option String :=
  if keyMatches "ArgsVersion" k then
    let p := decIntField a.ArgsVersion v
    ({ a with ArgsVersion := p.1 }, p.2)
  else if keyMatches "Metadata" k then
    let p := decRawField a.Metadata v
    ({ a with Metadata := p.1 }, p.2)
  else if keyMatches "Baggage" k then
    let p := decodeStructVal baggageStep a.Baggage v
    ({ a with Baggage := p.1 }, p.2)
  else (a, none)

/-- Models json.Unmarshal of the payload text into a fresh zero Args value: a
failed validity scan fills nothing, a decode error leaves the fields decoded so
far (the record may be partially filled) and reports the first error. -/
def unmarshalArgs (s : String) : Args × Option String :=
  match Json.parse s with
  | .error e => (zeroArgs, some e)
  | .ok j => decodeStructVal argsStep zeroArgs j

/-- Process state seen by GetArgs: the package-level cache variable args (none
models the nil pointer) and the process argument vector os.Args, whose entry 0
is the program name. -/
structure SdkState where
  cache : Option Args
  osArgs : List String

/-- GetArgs from actionsdk.go: return the cached record if the package-level
variable is set; otherwise require a positional argument, set the package
variable to a fresh zero record, unmarshal the first positional argument into
it, and return it, or wrap the unmarshal error.  The package variable is
assigned before the unmarshal runs, exactly as in the source. -/
def GetArgs (s : SdkState) : Except String Args × SdkState :=
  match s.cache with
  | some a => (.ok a, s)
  | none =>
    if s.osArgs.length < 2 then (.error "no arguments present", s)
    else
      let p := unmarshalArgs (s.osArgs.getD 1 "")
      match p.2 with
      | some e => (.error ("unable to parse arguments: " ++ e), { s with cache := some p.1 })
      | none => (.ok p.1, { s with cache := some p.1 })

/-- GetMetadata from actionsdk.go, parameterized by the caller-supplied
destination shape, given as the json decoding of a JSON value into that shape:
obtain the record from GetArgs, then unmarshal the raw Metadata member into the
destination.  A nil RawMessage (payload without Metadata) gives the unmarshal
error on empty input. -/
def GetMetadata (dec : Json → Except String α) (s : SdkState) :
    Except String α × SdkState :=
  match GetArgs s with
  | (.error e, s2) => (.error e, s2)
  | (.ok a, s2) =>
    match a.Metadata with
    | none => (.error "unexpected end of JSON input", s2)
    | some m => (dec m, s2)

/-- GetSecret from actionsdk.go over an explicit environment; os.Getenv yields
the empty string for an unset variable, so absence and empty value coincide. -/
def GetSecret (str : String) (env : String → Option String) : Except String String :=
  let secret := (env str).getD ""
  if secret ≠ "" then .ok secret
  else .error ("secret not found: " ++ str)

/-- Standard output modelled as the text written so far, plus a flag under
which writes fail, modelling an error from fmt.Fprint on os.Stdout. -/
structure World where
  stdout : String
  stdoutBroken : Bool

/-- fmt.Fprint on os.Stdout: appends to the stream or fails. -/
def fprintStdout (w : World) (s : String) : Except String World :=
  if w.stdoutBroken then .error "write to stdout failed"
  else .ok { w with stdout := w.stdout ++ s }

/-- A non-nil Go interface value passed to WriteResult: either a value that
marshals to a JSON value, or one json.Marshal rejects, such as a channel, a
function or a cyclic value. -/
inductive GoValue where
  | jsonVal : Json → GoValue
  | unsupported : String → GoValue

/-- json.Marshal on an interface value. -/
def jsonMarshal : GoValue → Except String String
  | .jsonVal j => .ok j.encode
  | .unsupported d => .error ("json: unsupported type: " ++ d)

/-- Outcome of an emitter call: an ordinary return carrying the error value
and the new world, or process termination by log.Fatal with the logged
message. -/
inductive EmitResult where
  | ret : Except String Unit → World → EmitResult
  | fatal : String → World → EmitResult

/-- WriteResult from actionsdk.go: a nil interface writes the literal empty
object; otherwise the value is marshalled and written verbatim.  Marshal and
write failures are returned as ordinary error values. -/
def WriteResult (i : Option GoValue) (w : World) : EmitResult :=
  match i with
  | none =>
    match fprintStdout w "\x7b\x7d" with
    | .ok w2 => .ret (.ok ()) w2
    | .error e => .ret (.error e) w
  | some v =>
    match jsonMarshal v with
    | .error e => .ret (.error ("error writing output: " ++ e)) w
    | .ok byt =>
      match fprintStdout w byt with
      | .ok w2 => .ret (.ok ()) w2
      | .error e => .ret (.error e) w

/-- WriteError from actionsdk.go: marshal the one-key error object and write
it; a write failure is logged and terminates the process via log.Fatal.  The
marshal of a map from the string key error to a string message never fails, so
the log.Fatal branch after the marshal in the source is unreachable in the
model. -/
def WriteError (msg : String) (w : World) : EmitResult :=
  let byt := (Json.obj [("error", Json.str msg)]).encode
  match fprintStdout w byt with
  | .ok w2 => .ret (.ok ()) w2
  | .error e => .fatal ("unable to write error: " ++ e) w

/-- The destination struct of the end-to-end example of the spec: a Go struct
with the single exported field X of type int. -/
structure XStruct where
  X : Int

/-- Field step for XStruct. -/
def xStep (x : XStruct) (k : String) (v : Json) : XStruct × Option String :=
  if keyMatches "X" k then
    let p := decIntField x.X v
    ({ X := p.1 }, p.2)
  else (x, none)

/-- json.Unmarshal of a JSON value into a fresh zero XStruct, the destination
shape handed to GetMetadata; the first recorded error is returned, as Unmarshal
returns it. -/
def decodeXStruct (j : Json) : Except String XStruct :=
  match decodeStructVal xStep ⟨0⟩ j with
  | (x, none) => .ok x
  | (_, some e) => .error e

/-- json.Marshal of an XStruct: the canonical exported field name X. -/
def encodeXStruct (x : XStruct) : Json := Json.obj [("X", Json.num x.X)]

/-- The end-to-end payload text of the spec. -/
def payloadText : String :=
  "\x7b\"ArgsVersion\":1,\"Metadata\":\x7b\"x\":5\x7d,\"Baggage\":\x7b\"WorkspaceEvent\":\x7b\"Event\":\x7b\"name\":\"signup\",\"data\":\x7b\x7d\x7d\x7d,\"Actions\":\x7b\x7d\x7d\x7d"

/-- The Metadata member of the end-to-end payload: the object with the single
member x = 5. -/
def metaX : Json := Json.obj [("x", Json.num 5)]

/-- A decoded record holding that Metadata member. -/
def argsX : Args := ⟨1, some metaX, zeroBaggage⟩

/-- C1: the spec states that a failed parse leaves the process-wide cache
uninitialized so that a later call re-parses and can succeed; the source
violates this.  GetArgs assigns the package-level variable to a fresh zero
record before unmarshalling, so after a malformed first argument the cache
holds the zero record, a second call returns it with no error instead of
re-parsing, and a retry with a valid argument still returns the stale zero
record.  Only the missing-arguments path leaves the cache unchanged. -/
theorem getArgs_failed_parse_poisons_cache :
    GetArgs ⟨none, ["action"]⟩ = (.error "no arguments present", ⟨none, ["action"]⟩) ∧
    (GetArgs ⟨none, ["action", "not-json"]⟩).1 =
      .error ("unable to parse arguments: " ++ "invalid character in literal") ∧
    (GetArgs ⟨none, ["action", "not-json"]⟩).2.cache = some zeroArgs ∧
    GetArgs ⟨some zeroArgs, ["action", "not-json"]⟩ =
      (.ok zeroArgs, ⟨some zeroArgs, ["action", "not-json"]⟩) ∧
    GetArgs ⟨some zeroArgs, ["action", payloadText]⟩ =
      (.ok zeroArgs, ⟨some zeroArgs, ["action", payloadText]⟩) :=
  ⟨rfl, rfl, rfl, rfl, rfl⟩

/-- C2: with a record already cached, GetArgs returns exactly the cached
record with no error and leaves the state unchanged, whatever the argument
vector holds: a second call is unaffected by any mutation of the underlying
argument source, and no re-parsing happens. -/
theorem getArgs_cached_idempotent (a : Args) (osa osa2 : List String) :
    GetArgs ⟨some a, osa⟩ = (.ok a, ⟨some a, osa⟩) ∧
    GetArgs ⟨some a, osa2⟩ = (.ok a, ⟨some a, osa2⟩) :=
  ⟨rfl, rfl⟩

/-- C2 witness at a concrete cached record and two different argument
vectors. -/
theorem getArgs_cached_idempotent_witness :
    GetArgs ⟨some argsX, ["action", "x"]⟩ = (.ok argsX, ⟨some argsX, ["action", "x"]⟩) ∧
    GetArgs ⟨some argsX, ["mutated"]⟩ = (.ok argsX, ⟨some argsX, ["mutated"]⟩) :=
  getArgs_cached_idempotent argsX ["action", "x"] ["mutated"]

/-- C3: with no cached record, fewer than two entries in the argument vector
gives the missing-arguments error with no record and the state unchanged; a
first positional argument that does not parse as JSON gives the
malformed-payload error, which wraps the original parse error, and no
record. -/
theorem getArgs_error_conditions (osa : List String) :
    (osa.length < 2 → GetArgs ⟨none, osa⟩ = (.error "no arguments present", ⟨none, osa⟩)) ∧
    (∀ e, 2 ≤ osa.length → Json.parse (osa.getD 1 "") = .error e →
      (GetArgs ⟨none, osa⟩).1 = .error ("unable to parse arguments: " ++ e)) := by
  constructor
  · intro hlen
    unfold GetArgs
    simp only [if_pos hlen]
  · intro e hlen hparse
    simp only [GetArgs, unmarshalArgs, hparse, if_neg (show ¬(osa.length < 2) by omega)]

/-- C3 witness: the empty argument vector yields the missing-arguments error,
and a concrete non-JSON argument yields the malformed-payload error embedding
the parse error. -/
theorem getArgs_error_conditions_witness :
    GetArgs ⟨none, ["action"]⟩ = (.error "no arguments present", ⟨none, ["action"]⟩) ∧
    (GetArgs ⟨none, ["action", "not-json"]⟩).1 =
      .error ("unable to parse arguments: " ++ "invalid character in literal") :=
  ⟨(getArgs_error_conditions ["action"]).1 (by decide),
   (getArgs_error_conditions ["action", "not-json"]).2 "invalid character in literal"
     (by decide) rfl⟩

/-- C4: GetMetadata obtains the record through GetArgs and decodes the raw
Metadata member into the caller-supplied destination shape: any GetArgs error
is propagated unchanged; with a record whose Metadata member is present, the
destination decoding is run on exactly that member; on the end-to-end payload,
whose Metadata is the object with member x = 5, decoding into the struct with
field X int yields X = 5 with no error; and a blob incompatible with the
destination surfaces as a shape-mismatch error. -/
theorem getMetadata_spec {α : Type} (dec : Json → Except String α) (s : SdkState) :
    (∀ e s2, GetArgs s = (.error e, s2) → GetMetadata dec s = (.error e, s2)) ∧
    (∀ a s2 m, GetArgs s = (.ok a, s2) → a.Metadata = some m →
      GetMetadata dec s = (dec m, s2)) ∧
    (GetMetadata decodeXStruct ⟨none, ["action", payloadText]⟩).1 = .ok ⟨5⟩ ∧
    decodeXStruct (Json.str "mismatch") = .error "cannot unmarshal value into Go struct" := by
  refine ⟨?_, ?_, by rfl, rfl⟩
  · intro e s2 hg
    simp only [GetMetadata, hg]
  · intro a s2 m hg hm
    simp only [GetMetadata, hg, hm]

/-- C4 witness: a state with no arguments propagates the GetArgs error, and a
state with a cached record runs the destination decoding on its Metadata
member. -/
theorem getMetadata_spec_witness :
    GetMetadata decodeXStruct ⟨none, ["action"]⟩ =
      (.error "no arguments present", ⟨none, ["action"]⟩) ∧
    GetMetadata decodeXStruct ⟨some argsX, ["action"]⟩ =
      (decodeXStruct metaX, ⟨some argsX, ["action"]⟩) :=
  ⟨(getMetadata_spec decodeXStruct ⟨none, ["action"]⟩).1 "no arguments present"
     ⟨none, ["action"]⟩ rfl,
   (getMetadata_spec decodeXStruct ⟨some argsX, ["action"]⟩).2.1 argsX
     ⟨some argsX, ["action"]⟩ metaX rfl rfl⟩

/-- C5: GetSecret returns the secret-not-found error naming the requested
secret both when the environment variable is absent and when it is set to the
empty string, and returns exactly the value with no error when it is set to a
non-empty string. -/
theorem getSecret_spec (name : String) (env : String → Option String) :
    ((env name = none ∨ env name = some "") →
      GetSecret name env = .error ("secret not found: " ++ name)) ∧
    (∀ v, env name = some v → v ≠ "" → GetSecret name env = .ok v) := by
  constructor
  · rintro (h | h) <;> simp [GetSecret, h]
  · intro v h hv
    simp [GetSecret, h, hv]

/-- C5 witness: FOO unset, FOO empty, and FOO set to a non-empty value. -/
theorem getSecret_spec_witness :
    GetSecret "FOO" (fun _ => none) = .error ("secret not found: " ++ "FOO") ∧
    GetSecret "FOO" (fun _ => some "") = .error ("secret not found: " ++ "FOO") ∧
    GetSecret "FOO" (fun _ => some "hunter2") = .ok "hunter2" :=
  ⟨(getSecret_spec "FOO" (fun _ => none)).1 (Or.inl rfl),
   (getSecret_spec "FOO" (fun _ => some "")).1 (Or.inr rfl),
   (getSecret_spec "FOO" (fun _ => some "hunter2")).2 "hunter2" rfl (by decide)⟩

/-- C6: with a working stream, WriteResult with the nil interface writes
exactly the two-character empty-object literal and returns no error; with any
JSON-marshalable value it writes exactly the compact JSON encoding of the
value, verbatim, with no trailing newline, no added whitespace and no framing;
the encoding of the object with member a = 1 is exactly that seven-character
text. -/
theorem writeResult_output (w : World) (h : w.stdoutBroken = false) :
    (WriteResult none w = .ret (.ok ()) { w with stdout := w.stdout ++ "\x7b\x7d" } ∧
      ("\x7b\x7d" : String).length = 2) ∧
    (∀ j : Json, WriteResult (some (.jsonVal j)) w =
      .ret (.ok ()) { w with stdout := w.stdout ++ j.encode }) ∧
    (Json.obj [("a", Json.num 1)]).encode = "\x7b\"a\":1\x7d" := by
  refine ⟨⟨?_, by decide⟩, fun j => ?_, by rfl⟩
  · simp [WriteResult, fprintStdout, h]
  · simp [WriteResult, jsonMarshal, fprintStdout, h]

/-- C6 witness at the empty working stream, for the nil interface and for the
object with member a = 1. -/
theorem writeResult_output_witness :
    WriteResult none ⟨"", false⟩ = .ret (.ok ()) ⟨"" ++ "\x7b\x7d", false⟩ ∧
    WriteResult (some (.jsonVal (Json.obj [("a", Json.num 1)]))) ⟨"", false⟩ =
      .ret (.ok ()) ⟨"" ++ (Json.obj [("a", Json.num 1)]).encode, false⟩ :=
  ⟨(writeResult_output ⟨"", false⟩ rfl).1.1,
   (writeResult_output ⟨"", false⟩ rfl).2.1 (Json.obj [("a", Json.num 1)])⟩

/-- C7: with a working stream, WriteError writes to the stream exactly the
JSON encoding of the one-key object mapping error to the message string; for
the message secret not found: FOO the text written is exactly the expected
envelope. -/
theorem writeError_output (msg : String) (w : World) (h : w.stdoutBroken = false) :
    WriteError msg w =
      .ret (.ok ())
        { w with stdout := w.stdout ++ (Json.obj [("error", Json.str msg)]).encode } ∧
    (Json.obj [("error", Json.str "secret not found: FOO")]).encode =
      "\x7b\"error\":\"secret not found: FOO\"\x7d" := by
  refine ⟨?_, by rfl⟩
  simp [WriteError, fprintStdout, h]

/-- C7 witness at the concrete message and the empty working stream. -/
theorem writeError_output_witness :
    WriteError "secret not found: FOO" ⟨"", false⟩ =
      .ret (.ok ())
        ⟨"" ++ (Json.obj [("error", Json.str "secret not found: FOO")]).encode, false⟩ ∧
    (Json.obj [("error", Json.str "secret not found: FOO")]).encode =
      "\x7b\"error\":\"secret not found: FOO\"\x7d" :=
  writeError_output "secret not found: FOO" ⟨"", false⟩ rfl

/-- C8: WriteResult reports marshal failures and stream write failures as
ordinary returned error values and never terminates the process, producing a
normal return for every input; WriteError, on the same stream write failure,
logs and terminates the process fatally, leaving no control to the caller. -/
theorem emitter_failure_modes (i : Option GoValue) (j : Json) (d msg : String) (w : World) :
    (∃ r w2, WriteResult i w = .ret r w2) ∧
    (WriteResult (some (.unsupported d)) w =
      .ret (.error ("error writing output: " ++ ("json: unsupported type: " ++ d))) w) ∧
    (w.stdoutBroken = true → WriteResult none w = .ret (.error "write to stdout failed") w) ∧
    (w.stdoutBroken = true → WriteResult (some (.jsonVal j)) w =
      .ret (.error "write to stdout failed") w) ∧
    (w.stdoutBroken = true →
      WriteError msg w = .fatal ("unable to write error: " ++ "write to stdout failed") w) := by
  refine ⟨?_, ?_, ?_, ?_, ?_⟩
  · rcases i with _ | v
    · rcases hb : w.stdoutBroken with _ | _
      · exact ⟨.ok (), { w with stdout := w.stdout ++ "\x7b\x7d" },
          by simp [WriteResult, fprintStdout, hb]⟩
      · exact ⟨.error "write to stdout failed", w, by simp [WriteResult, fprintStdout, hb]⟩
    · rcases v with j2 | d2
      · rcases hb : w.stdoutBroken with _ | _
        · exact ⟨.ok (), { w with stdout := w.stdout ++ j2.encode },
            by simp [WriteResult, jsonMarshal, fprintStdout, hb]⟩
        · exact ⟨.error "write to stdout failed", w,
            by simp [WriteResult, jsonMarshal, fprintStdout, hb]⟩
      · exact ⟨.error ("error writing output: " ++ ("json: unsupported type: " ++ d2)), w,
          by simp [WriteResult, jsonMarshal]⟩
  · simp [WriteResult, jsonMarshal]
  · intro hb
    simp [WriteResult, fprintStdout, hb]
  · intro hb
    simp [WriteResult, jsonMarshal, fprintStdout, hb]
  · intro hb
    simp [WriteError, fprintStdout, hb]

/-- C8 witness at a broken stream and concrete inputs. -/
theorem emitter_failure_modes_witness :
    (∃ r w2, WriteResult none ⟨"", true⟩ = .ret r w2) ∧
    WriteResult (some (.unsupported "chan int")) ⟨"", true⟩ =
      .ret (.error ("error writing output: " ++ ("json: unsupported type: " ++ "chan int")))
        ⟨"", true⟩ ∧
    WriteResult none ⟨"", true⟩ = .ret (.error "write to stdout failed") ⟨"", true⟩ ∧
    WriteResult (some (.jsonVal Json.null)) ⟨"", true⟩ =
      .ret (.error "write to stdout failed") ⟨"", true⟩ ∧
    WriteError "boom" ⟨"", true⟩ =
      .fatal ("unable to write error: " ++ "write to stdout failed") ⟨"", true⟩ := by
  obtain ⟨h1, h2, h3, h4, h5⟩ :=
    emitter_failure_modes none Json.null "chan int" "boom" ⟨"", true⟩
  exact ⟨h1, h2, h3 rfl, h4 rfl, h5 rfl⟩

/-- C9 counterexample: on the end-to-end payload, whose Metadata member is the
object with the single member x = 5, decoding into the struct with field X int
succeeds, because the Go decoder matches the member key x to the field X
case-insensitively, but re-encoding the decoded struct produces the object
with the canonical member name X, which is not the original Metadata object:
the decode/encode round trip is not field-for-field equality for every
destination shape consistent with the blob. -/
theorem metadata_roundtrip_counterexample :
    (GetMetadata decodeXStruct ⟨none, ["action", payloadText]⟩).1 = .ok ⟨5⟩ ∧
    decodeXStruct metaX = .ok ⟨5⟩ ∧
    encodeXStruct ⟨5⟩ = Json.obj [("X", Json.num 5)] ∧
    metaX = Json.obj [("x", Json.num 5)] ∧
    encodeXStruct ⟨5⟩ ≠ metaX := by
  refine ⟨by rfl, by rfl, rfl, rfl, ?_⟩
  intro hEq
  simp [encodeXStruct, metaX] at hEq

/-- C9 amended: the decode/encode round trip is field-for-field whenever the
Metadata object uses exactly the canonical encoded field names of the
destination and the values are representable in the destination fields: for
every integer n in the 64-bit range of the Go int type, decoding the object
with the single member X = n into the struct with field X int succeeds and
re-encoding the result returns exactly the original object; for a number at or
above 2 to the 63rd the programs json.Unmarshal instead fails with a range
error, so no round trip happens. -/
theorem metadata_roundtrip_exact_keys (n : Int) (h : -(2 ^ 63) ≤ n ∧ n < 2 ^ 63) :
    (decodeXStruct (Json.obj [("X", Json.num n)]) = .ok ⟨n⟩ ∧
      encodeXStruct ⟨n⟩ = Json.obj [("X", Json.num n)]) ∧
    (∀ m : Int, 2 ^ 63 ≤ m →
      decodeXStruct (Json.obj [("X", Json.num m)]) =
        .error "cannot unmarshal number out of range into Go value of type int") := by
  constructor
  · refine ⟨?_, rfl⟩
    have hd : decIntField 0 (Json.num n) = (n, none) := by
      simp only [decIntField]
      rw [if_pos h]
    simp [decodeXStruct, decodeStructVal, decodeFields, xStep, hd, firstErr,
      show keyMatches "X" "X" = true by decide]
  · intro m hm
    have hneg : ¬(-(2 ^ 63) ≤ m ∧ m < 2 ^ 63) := fun hc => absurd hc.2 (not_lt.mpr hm)
    have hd : decIntField 0 (Json.num m) =
        (0, some "cannot unmarshal number out of range into Go value of type int") := by
      simp only [decIntField]
      rw [if_neg hneg]
    simp [decodeXStruct, decodeStructVal, decodeFields, xStep, hd, firstErr,
      show keyMatches "X" "X" = true by decide]

/-- C9 witness for the amended round trip at n = 7 and the range failure at
the smallest out-of-range number. -/
theorem metadata_roundtrip_exact_keys_witness :
    (-(2 ^ 63) ≤ (7 : Int) ∧ (7 : Int) < 2 ^ 63) ∧
    ((decodeXStruct (Json.obj [("X", Json.num 7)]) = .ok ⟨7⟩ ∧
        encodeXStruct ⟨7⟩ = Json.obj [("X", Json.num 7)]) ∧
      decodeXStruct (Json.obj [("X", Json.num (2 ^ 63))]) =
        .error "cannot unmarshal number out of range into Go value of type int") :=
  ⟨by decide,
   ⟨(metadata_roundtrip_exact_keys 7 (by decide)).1,
    (metadata_roundtrip_exact_keys 7 (by decide)).2 (2 ^ 63) le_rfl⟩⟩

/-- C10: WriteResult writes the empty-object literal only for the nil
interface value; a non-nil interface holding a value that marshals to the JSON
literal null, as a nil pointer, nil map or nil slice does, takes the marshal
branch and writes the four-character text null, not the empty object. -/
theorem writeResult_nil_vs_null (w : World) (h : w.stdoutBroken = false) :
    WriteResult none w = .ret (.ok ()) { w with stdout := w.stdout ++ "\x7b\x7d" } ∧
    WriteResult (some (.jsonVal Json.null)) w =
      .ret (.ok ()) { w with stdout := w.stdout ++ "null" } ∧
    ("null" : String) ≠ "\x7b\x7d" := by
  refine ⟨?_, ?_, by decide⟩
  · simp [WriteResult, fprintStdout, h]
  · simp [WriteResult, jsonMarshal, Json.encode, fprintStdout, h]

/-- C10 witness at the empty working stream. -/
theorem writeResult_nil_vs_null_witness :
    WriteResult none ⟨"", false⟩ = .ret (.ok ()) ⟨"" ++ "\x7b\x7d", false⟩ ∧
    WriteResult (some (.jsonVal Json.null)) ⟨"", false⟩ =
      .ret (.ok ()) ⟨"" ++ "null", false⟩ ∧
    ("null" : String) ≠ "\x7b\x7d" :=
  writeResult_nil_vs_null ⟨"", false⟩ rfl
